import Mathlib

/-!
Verification of the non-browser logic of a work.ua job-application bot.

The development shallowly embeds the Python sources:
* `database.py`  — month arithmetic, the CSV dedup store and the Supabase
  dedup store (both modelled as in-memory lists of records; file and
  network I/O is assumed to succeed, matching the happy path of the code);
* `scraper.py`   — the `search_jobs` pagination loop and the
  `apply_to_job` check→click→confirm sequence, with every page
  observation (button presence, click outcomes, success markers)
  supplied by an explicit environment record;
* `llm_service.py` / `bot.py` — LLM analysis fallbacks and the
  filter/resume loading fallbacks, with file reads and LLM calls
  modelled as `Except` values.

Python `datetime` values are modelled by their (year, month, day)
components; `strptime("%Y-%m-%d")` and `strftime("%Y-%m-%d")` are
implemented over character lists following CPython's `_strptime`
field patterns (`%Y` = four digits, `%m`/`%d` = one or two digits in
range) and zero-padded decimal printing.
-/

/-- A Python `datetime` reduced to the components the program uses.
Python guarantees `1 ≤ year ≤ 9999`, `1 ≤ month ≤ 12`, `1 ≤ day ≤ 31`;
theorems take those bounds as hypotheses where they matter. -/
structure PyDate where
  year : Nat
  month : Nat
  day : Nat
deriving Repr, DecidableEq

/-- `VacancyDatabase.calculate_months_between` (database.py:44-54):
`(to_date.year - from_date.year) * 12 + (to_date.month - from_date.month)`. -/
def calculate_months_between (from_date to_date : PyDate) : Int :=
  ((to_date.year : Int) - (from_date.year : Int)) * 12
    + ((to_date.month : Int) - (from_date.month : Int))

/-- One row of the dedup store: `{url, date_applied, title, company}`. -/
structure VacancyRecord where
  url : String
  date_applied : String
  title : String
  company : String
deriving Repr, DecidableEq

/-- The CSV header `fieldnames = ["url", "date_applied", "title", "company"]`
(database.py:62). -/
def fieldnames : List String := ["url", "date_applied", "title", "company"]

/-- A CSV file as the program sees it: a header line plus data rows. -/
structure CSVFile where
  header : List String
  rows : List VacancyRecord
deriving Repr, DecidableEq

/-- `CSVVacancyDatabase._ensure_db_exists` (database.py:66-74): if the file
is missing, create it with the header only; otherwise leave it alone. -/
def ensure_db_exists (file : Option CSVFile) : CSVFile :=
  match file with
  | none => { header := fieldnames, rows := [] }
  | some f => f

/-- `CSVVacancyDatabase.get_application` (database.py:76-90): scan the rows
in order and return the first row whose `url` field matches. -/
def get_application (rows : List VacancyRecord) (url : String) :
    Option VacancyRecord :=
  rows.find? (fun r => r.url == url)

/-- The row update performed inside the `add_or_update` read loop
(database.py:102-110): the date is always overwritten, title and company
only when the new value is non-empty (Python string truthiness). -/
def updateRow (r : VacancyRecord) (date_applied title company : String) :
    VacancyRecord :=
  { r with
    date_applied := date_applied
    title := if title = "" then r.title else title
    company := if company = "" then r.company else company }

/-- `CSVVacancyDatabase.add_or_update` (database.py:92-131): rewrite every
row, updating those whose `url` matches, and append a fresh row when none
matched.  The file-read and file-write are assumed to succeed. -/
def add_or_update (rows : List VacancyRecord)
    (url date_applied title company : String) : List VacancyRecord :=
  let rows2 := rows.map (fun r =>
    if r.url == url then updateRow r date_applied title company else r)
  let existing := rows.any (fun r => r.url == url)
  if existing then rows2
  else rows2 ++ [⟨url, date_applied, title, company⟩]

/-- Writing the store back to disk (database.py:124-128) always emits the
header followed by the rows. -/
def writeCSV (rows : List VacancyRecord) : CSVFile :=
  { header := fieldnames, rows := rows }

/-- `SupabaseVacancyDatabase.get_application` (database.py:203-230): the
`eq("url", url)` query returns the matching rows and the code takes
`data[0]`, i.e. the first match. -/
def sb_get_application (tbl : List VacancyRecord) (url : String) :
    Option VacancyRecord :=
  tbl.find? (fun r => r.url == url)

/-- `SupabaseVacancyDatabase.add_or_update` (database.py:232-247): an atomic
PostgreSQL upsert with `on_conflict="url"` — the whole conflicting row is
replaced by the new values, otherwise the row is inserted. -/
def sb_add_or_update (tbl : List VacancyRecord)
    (url date_applied title company : String) : List VacancyRecord :=
  let row : VacancyRecord := ⟨url, date_applied, title, company⟩
  if tbl.any (fun r => r.url == url) then
    tbl.map (fun r => if r.url == url then row else r)
  else tbl ++ [row]

/-! ### `strptime("%Y-%m-%d")` / `strftime("%Y-%m-%d")` -/

/-- ASCII decimal digit test. -/
def isDigitChar (c : Char) : Bool := '0' ≤ c && c ≤ '9'

/-- Value of a digit string, most significant first. -/
def digitsToNat (l : List Char) : Nat :=
  l.foldl (fun a c => a * 10 + (c.toNat - 48)) 0

/-- Split a character list on `'-'`, mirroring `str.split("-")`. -/
def splitDash : List Char → List (List Char)
  | [] => [[]]
  | c :: cs =>
    if c = '-' then [] :: splitDash cs
    else
      match splitDash cs with
      | [] => [[c]]
      | p :: ps => (c :: p) :: ps

/-- CPython `_strptime` pattern for `%Y`: exactly four digits. -/
def matchYear (l : List Char) : Bool :=
  l.length == 4 && l.all isDigitChar

/-- CPython `_strptime` patterns for `%m` and `%d`: one or two digits whose
value lies in `[lo, hi]` (so `"0"` and `"00"` are rejected). -/
def matchTwoDigit (lo hi : Nat) (l : List Char) : Bool :=
  (l.length == 1 || l.length == 2) && l.all isDigitChar
    && lo ≤ digitsToNat l && digitsToNat l ≤ hi

/-- Gregorian leap-year rule used by `datetime`. -/
def isLeapYear (y : Nat) : Bool :=
  y % 4 == 0 && (y % 100 != 0 || y % 400 == 0)

/-- Days in a month, as validated by the `datetime` constructor. -/
def daysInMonth (y m : Nat) : Nat :=
  if m = 2 then (if isLeapYear y then 29 else 28)
  else if m = 4 ∨ m = 6 ∨ m = 9 ∨ m = 11 then 30
  else 31

/-- `datetime.strptime(s, "%Y-%m-%d")` (database.py:148): `none` models the
`ValueError` path.  The string must be exactly `year-month-day` with a
four-digit year, a 1–2 digit month in 1..12, a 1–2 digit day in 1..31,
and the day must exist in that month (`datetime` constructor check,
`MINYEAR = 1`). -/
def parseIsoDate (s : String) : Option PyDate :=
  match splitDash s.data with
  | [ys, ms, ds] =>
    if matchYear ys && matchTwoDigit 1 12 ms && matchTwoDigit 1 31 ds then
      let y := digitsToNat ys
      let m := digitsToNat ms
      let d := digitsToNat ds
      if 1 ≤ y ∧ d ≤ daysInMonth y m then some ⟨y, m, d⟩ else none
    else none
  | _ => none

/-- Decimal digit character for a value below 10. -/
def decDigitChar (d : Nat) : Char :=
  match d with
  | 0 => '0' | 1 => '1' | 2 => '2' | 3 => '3' | 4 => '4'
  | 5 => '5' | 6 => '6' | 7 => '7' | 8 => '8' | _ => '9'

/-- Decimal digits, most significant first, with explicit fuel so that the
recursion is structural and kernel-reducible.  Any fuel above the value
gives the same answer. -/
def decDigitsGo : Nat → Nat → List Nat
  | _, 0 => []
  | n, fuel + 1 =>
    if n < 10 then [n] else decDigitsGo (n / 10) fuel ++ [n % 10]

/-- Decimal digits of a number, most significant first. -/
def decDigits (n : Nat) : List Nat := decDigitsGo n (n + 1)

/-- Characters of the decimal rendering of `n`. -/
def natDecChars (n : Nat) : List Char := (decDigits n).map decDigitChar

/-- Characters of `strftime("%m")` / `strftime("%d")`: zero-padded to two. -/
def pad2Chars (n : Nat) : List Char :=
  if n < 10 then '0' :: natDecChars n else natDecChars n

/-- `d.strftime("%Y-%m-%d")` as a character list (scraper.py:741,884). -/
def isoFormatChars (d : PyDate) : List Char :=
  natDecChars d.year ++ '-' :: pad2Chars d.month ++ '-' :: pad2Chars d.day

/-- `d.strftime("%Y-%m-%d")` (scraper.py:741,884). -/
def isoFormat (d : PyDate) : String := ⟨isoFormatChars d⟩

/-- `CSVVacancyDatabase.should_reapply` (database.py:133-161): `True` when
there is no record, when the stored date does not parse, or when at least
`months_threshold` months elapsed. -/
def should_reapply (rows : List VacancyRecord) (url : String)
    (months_threshold : Int) (now : PyDate) : Bool :=
  match get_application rows url with
  | none => true
  | some record =>
    match parseIsoDate record.date_applied with
    | none => true
    | some date_applied =>
      decide (calculate_months_between date_applied now ≥ months_threshold)

/-- `CSVVacancyDatabase.get_months_since_application` (database.py:163-175). -/
def get_months_since_application (rows : List VacancyRecord) (url : String)
    (now : PyDate) : Option Int :=
  match get_application rows url with
  | none => none
  | some record =>
    match parseIsoDate record.date_applied with
    | none => none
    | some date_applied => some (calculate_months_between date_applied now)

/-- `SupabaseVacancyDatabase.should_reapply` (database.py:252-285): same
decision structure over the Supabase store. -/
def sb_should_reapply (tbl : List VacancyRecord) (url : String)
    (months_threshold : Int) (now : PyDate) : Bool :=
  match sb_get_application tbl url with
  | none => true
  | some record =>
    match parseIsoDate record.date_applied with
    | none => true
    | some date_applied =>
      decide (calculate_months_between date_applied now ≥ months_threshold)

/-- `SupabaseVacancyDatabase.get_months_since_application`
(database.py:287-305). -/
def sb_get_months_since_application (tbl : List VacancyRecord) (url : String)
    (now : PyDate) : Option Int :=
  match sb_get_application tbl url with
  | none => none
  | some record =>
    match parseIsoDate record.date_applied with
    | none => none
    | some date_applied => some (calculate_months_between date_applied now)

/-- Number of rows with a given URL. -/
def countURL (rows : List VacancyRecord) (u : String) : Nat :=
  rows.countP (fun r => r.url == u)

/-- The store invariant: at most one record per URL. -/
def atMostOnePerURL (rows : List VacancyRecord) : Prop :=
  ∀ u, countURL rows u ≤ 1

/-- One upsert request, as issued by callers of `add_or_update`. -/
structure UpsertOp where
  url : String
  date_applied : String
  title : String
  company : String
deriving Repr, DecidableEq

/-- A sequence of CSV `add_or_update` calls. -/
def applyOps (rows : List VacancyRecord) (ops : List UpsertOp) :
    List VacancyRecord :=
  ops.foldl (fun acc op =>
    add_or_update acc op.url op.date_applied op.title op.company) rows

/-- A sequence of Supabase `add_or_update` calls. -/
def sb_applyOps (tbl : List VacancyRecord) (ops : List UpsertOp) :
    List VacancyRecord :=
  ops.foldl (fun acc op =>
    sb_add_or_update acc op.url op.date_applied op.title op.company) tbl

/-! ### `scraper.py`: `apply_to_job` -/

/-- The fields of the `JobListing` dataclass (scraper.py:16-32) that
`apply_to_job` reads. -/
structure JobListing where
  url : String
  title : String
  company : String
  location : String
  salary : Option String
  description : String
deriving Repr, DecidableEq

/-- The configuration fields `apply_to_job` consults. -/
structure ApplyConfig where
  REAPPLY_AFTER_MONTHS : Int
  USE_PRE_APPLY_LLM_CHECK : Bool
  MIN_MATCH_PROBABILITY : Int
deriving Repr, DecidableEq

/-- Everything `apply_to_job` observes on the live page, fixed up front so
the sequential script becomes a pure function.  `alreadySentDate` is the
result of the `(\d{2})\.(\d{2})\.(\d{4})` extraction from the
"Ви вже відгукалися" paragraph (`none` = mark absent, regex failed, or the
date was invalid — all of which make the code log and continue);
`preApplyProbability` is the `analyze_job_match_with_llm` outcome over the
`main` element (`none` = element missing or LLM error, which the code
catches and continues past). -/
structure ApplyPageEnv where
  hasAlreadySentMark : Bool
  alreadySentDate : Option PyDate
  preApplyProbability : Option (Int × String)
  hasApplyButton : Bool
  hasViewResumeApplyButton : Bool
  normalClickOk : Bool
  forceClickOk : Bool
  hasSendButton : Bool
  hasConfirmReapplyDialog : Bool
  hasNotAddButton : Bool
  finalUrlHasSent : Bool
  hasSuccessText : Bool
  hasViewResumeButtonAfter : Bool
deriving Repr, DecidableEq

/-- The already-applied check on the vacancy page (scraper.py:716-756):
when the mark is present and its date parses, the store is refreshed with
that date and the job is skipped if too recent; otherwise the run
continues.  Returns (proceed, store). -/
def alreadySentCheck (env : ApplyPageEnv) (cfg : ApplyConfig)
    (db : List VacancyRecord) (now : PyDate) (job : JobListing) :
    Bool × List VacancyRecord :=
  if env.hasAlreadySentMark then
    match env.alreadySentDate with
    | some applied_date =>
      let months_passed := calculate_months_between applied_date now
      let db2 := add_or_update db job.url (isoFormat applied_date)
        job.title job.company
      if months_passed < cfg.REAPPLY_AFTER_MONTHS then (false, db2)
      else (true, db2)
    | none => (true, db)
  else (true, db)

/-- The optional pre-apply LLM gate (scraper.py:758-778): skip only when
the check is enabled, a probability was obtained, and it is below the
minimum. -/
def preApplyCheck (env : ApplyPageEnv) (cfg : ApplyConfig) : Bool :=
  if cfg.USE_PRE_APPLY_LLM_CHECK then
    match env.preApplyProbability with
    | some pe => decide (pe.1 ≥ cfg.MIN_MATCH_PROBABILITY)
    | none => true
  else true

/-- The click on the apply button (scraper.py:814-827): a normal click,
then on failure exactly one force-click retry.  Returns (clicked, number
of click attempts made). -/
def clickApplyButton (env : ApplyPageEnv) : Bool × Nat :=
  if env.normalClickOk then (true, 1)
  else if env.forceClickOk then (true, 2)
  else (false, 2)

/-- Whether any of the three success heuristics fires (scraper.py:869-875):
`/sent/` in the URL, a success text, or a "Переглянути резюме" button. -/
def successDetected (env : ApplyPageEnv) : Bool :=
  env.finalUrlHasSent || env.hasSuccessText || env.hasViewResumeButtonAfter

/-- The final success block (scraper.py:866-890): on success the store is
upserted with today's date, otherwise it is left untouched. -/
def successCheck (env : ApplyPageEnv) (db : List VacancyRecord)
    (now : PyDate) (job : JobListing) : Bool × List VacancyRecord :=
  if successDetected env then
    (true, add_or_update db job.url (isoFormat now) job.title job.company)
  else (false, db)

/-- `WorkUAScraper.apply_to_job` (scraper.py:691-895) as a function of the
page environment, configuration, dedup store and current date.  The
confirm-reapply and location dialogs (scraper.py:850-864) are dismissed
without affecting the result or the store, and the in-memory
`applied_jobs` set is not modelled (no claim mentions it).  Returns
(reported success, store after the call). -/
def apply_to_job (loggedIn : Bool) (env : ApplyPageEnv) (cfg : ApplyConfig)
    (db : List VacancyRecord) (now : PyDate) (job : JobListing) :
    Bool × List VacancyRecord :=
  if !loggedIn then (false, db)
  else if !should_reapply db job.url cfg.REAPPLY_AFTER_MONTHS now then
    (false, db)
  else
    let step := alreadySentCheck env cfg db now job
    if !step.1 then (false, step.2)
    else if !preApplyCheck env cfg then (false, step.2)
    else if !(env.hasApplyButton || env.hasViewResumeApplyButton) then
      (false, step.2)
    else if !(clickApplyButton env).1 then (false, step.2)
    else if !env.hasSendButton then (false, step.2)
    else successCheck env step.2 now job

/-! ### `scraper.py`: `search_jobs` -/

/-- Python truthiness of `if target_jobs and len(jobs) >= target_jobs`
(scraper.py:541): a `None` or zero target never triggers the break. -/
def targetReached (target : Option Nat) (n : Nat) : Bool :=
  match target with
  | none => false
  | some t => t != 0 && n ≥ t

/-- The page loop of `search_jobs` (scraper.py:423-548): visit pages
`pageNum, pageNum+1, …` while `remaining` pages are allowed, appending
each page's parsed listings, and break right after the first page on
which `targetReached` fires.  Returns (collected jobs, pages visited). -/
def searchLoop (pages : Nat → List JobListing) (target : Option Nat) :
    Nat → Nat → List JobListing → List JobListing × Nat
  | _, 0, acc => (acc, 0)
  | pageNum, r + 1, acc =>
    let acc2 := acc ++ pages pageNum
    if targetReached target acc2.length then (acc2, 1)
    else
      let rest := searchLoop pages target (pageNum + 1) r acc2
      (rest.1, rest.2 + 1)

/-- `WorkUAScraper.search_jobs` reduced to its accumulation behaviour:
`pages n` is what `_parse_search_results` yields on result page `n`. -/
def search_jobs (pages : Nat → List JobListing) (max_pages : Nat)
    (target_jobs : Option Nat) : List JobListing × Nat :=
  searchLoop pages target_jobs 1 max_pages []

/-- Concatenation of result pages `1..k` in visit order. -/
def pagesFrom (pages : Nat → List JobListing) : Nat → Nat → List JobListing
  | _, 0 => []
  | p, j + 1 => pages p ++ pagesFrom pages (p + 1) j

/-! ### `llm_service.py` and `bot.py` fallbacks -/

/-- The hard-coded Ukrainian fallback filter (llm_service.py:79-85). -/
def fallbackFilter : String :=
  "\n            Я шукаю вакансії \x27менеджер з продажу\x27 або \x27sales manager\x27.\n            Мінімальна зарплата: 25000 гривень.\n            Вакансії від ФОП чи без верифікації work.ua - не влаштовують.\n            Сумнівні фірми які займаються езотерикою чи торгують сумнівними товарами - не влаштовують.\n            "

/-- `LLMAnalysisService.load_filter` (llm_service.py:63-87): the file read
is an `Except` (`error` = any exception while opening/reading). -/
def load_filter (readResult : Except String String) : String :=
  match readResult with
  | .ok filter_text => filter_text
  | .error _ => fallbackFilter

/-- `resolve_filter_path` (llm_service.py:12-34): `configuredPath` is
`getattr(config, "FILTER_PATH", "./my_filter.txt")` and `pathExists` is
`os.path.exists`. -/
def resolve_filter_path (configuredPath : Option String)
    (pathExists : String → Bool) : String :=
  let filter_path := configuredPath.getD "./my_filter.txt"
  if !pathExists filter_path then
    let fallback_path := "filter_example.txt"
    if pathExists fallback_path then fallback_path else filter_path
  else filter_path

/-- The hard-coded fallback resume (bot.py:75-86). -/
def fallbackResume : String :=
  "\n            Менеджер з продажу з досвідом роботи в B2B-сегменті.\n            \n            Досвід:\n            - Активні продажі в B2B (IT-рішення, SaaS)\n            - Робота з холодними контактами та теплими заявками\n            - СПІН продажів, робота з запереченнями\n            - CRM, Binotel, Bitrix24\n            \n            Шукаю: Менеджер з продажу позиції\n            Локація: Дистанційно\n            "

/-- `WorkUABot._load_resume` (bot.py:66-86). -/
def load_resume (readResult : Except String String) : String :=
  match readResult with
  | .ok text => text
  | .error _ => fallbackResume

/-- `LLMAnalysisService.analyze_job` (llm_service.py:88-142).  The LLM
round trip is an `Except`: `error` covers the API call failing or the
JSON not parsing; `ok (scoreOpt, reason)` is the parsed object, where
`result.get("score", 0)` defaults a missing score to 0. -/
def analyze_job (use_llm : Bool) (min_score : Int)
    (llm : Except String (Option Int × String)) : Bool × Int × String :=
  if !use_llm then (true, 10, "Brute force mode - applying to all")
  else
    match llm with
    | .error e => (false, 0, "Analysis error: " ++ e)
    | .ok (scoreOpt, reason) =>
      let score := scoreOpt.getD 0
      (decide (score ≥ min_score), score, reason)

/-- Python `\s` over ASCII. -/
def isPySpace (c : Char) : Bool :=
  c = ' ' || c = '\t' || c = '\n' || c = '\x0d' || c = '\x0b' || c = '\x0c'

/-- Try to strip a literal pattern off the front of the text. -/
def dropLiteral : List Char → List Char → Option (List Char)
  | [], l => some l
  | _ :: _, [] => none
  | p :: ps, c :: cs => if c = p then dropLiteral ps cs else none

/-- Match `PROBABILITY:\s*(\d+)` anchored at the head of `l`
(llm_service.py:228). -/
def probAt (l : List Char) : Option Nat :=
  match dropLiteral "PROBABILITY:".data l with
  | none => none
  | some rest =>
    let digits := (rest.dropWhile isPySpace).takeWhile isDigitChar
    if digits.isEmpty then none else some (digitsToNat digits)

/-- `re.search(r"PROBABILITY:\s*(\d+)", result)`: first position where the
pattern matches. -/
def searchProbability : List Char → Option Nat
  | [] => none
  | c :: cs =>
    match probAt (c :: cs) with
    | some v => some v
    | none => searchProbability cs

/-- `str.strip()` over ASCII whitespace. -/
def pyStrip (l : List Char) : List Char :=
  ((l.dropWhile isPySpace).reverse.dropWhile isPySpace).reverse

/-- Match `EXPLANATION:\s*(.+)` (DOTALL) anchored at the head of `l`; the
captured group is returned already `.strip()`-ed, which coincides with
stripping everything after the literal (llm_service.py:229,233). -/
def explAt (l : List Char) : Option (List Char) :=
  match dropLiteral "EXPLANATION:".data l with
  | none => none
  | some rest => if rest.isEmpty then none else some (pyStrip rest)

/-- `re.search(r"EXPLANATION:\s*(.+)", result, re.DOTALL)` followed by
`.strip()`. -/
def searchExplanation : List Char → Option (List Char)
  | [] => none
  | c :: cs =>
    match explAt (c :: cs) with
    | some r => some r
    | none => searchExplanation cs

/-- `LLMAnalysisService.analyze_job_match` (llm_service.py:183-243): the
LLM reply is an `Except String String` (`error` = API exception).  On a
reply that the `PROBABILITY` regex cannot parse, the defaults
`(50, raw reply)` are returned. -/
def analyze_job_match (use_llm has_client : Bool)
    (llm : Except String String) : Int × String :=
  if !use_llm || !has_client then (50, "LLM analysis not available")
  else
    match llm with
    | .error e => (50, "Analysis error: " ++ e)
    | .ok result =>
      match searchProbability result.data with
      | some probability =>
        let explanation :=
          match searchExplanation result.data with
          | some ex => String.mk ex
          | none => result
        ((probability : Int), explanation)
      | none => (50, result)

/-! ### Claims about the dedup store decision logic -/

/-- Claim C1: for every URL with no record in the store and every months
threshold, `should_reapply` returns `True` — in both the CSV store and
the Supabase store. -/
theorem C1_unknown_url_permits_reapply
    (rows tbl : List VacancyRecord) (url : String) (thr : Int) (now : PyDate)
    (h1 : get_application rows url = none)
    (h2 : sb_get_application tbl url = none) :
    should_reapply rows url thr now = true
      ∧ sb_should_reapply tbl url thr now = true := by
  constructor
  · simp [should_reapply, h1]
  · simp [sb_should_reapply, h2]

/-- Witness for C1 at the empty store. -/
theorem C1_witness :
    get_application [] "https://www.work.ua/jobs/1/" = none
      ∧ sb_get_application [] "https://www.work.ua/jobs/1/" = none
      ∧ should_reapply [] "https://www.work.ua/jobs/1/" 2 ⟨2026, 10, 12⟩ = true
      ∧ sb_should_reapply [] "https://www.work.ua/jobs/1/" 2 ⟨2026, 10, 12⟩ = true := by
  have h := C1_unknown_url_permits_reapply [] []
    "https://www.work.ua/jobs/1/" 2 ⟨2026, 10, 12⟩ rfl rfl
  exact ⟨rfl, rfl, h.1, h.2⟩

/-- Claim C9: a stored record whose `date_applied` does not parse as
`%Y-%m-%d` makes `should_reapply` permit re-application and makes
`get_months_since_application` return `None`. -/
theorem C9_unparseable_date_permits_reapply
    (rows : List VacancyRecord) (url : String) (thr : Int) (now : PyDate)
    (r : VacancyRecord)
    (hrec : get_application rows url = some r)
    (hbad : parseIsoDate r.date_applied = none) :
    should_reapply rows url thr now = true
      ∧ get_months_since_application rows url now = none := by
  constructor
  · simp [should_reapply, hrec, hbad]
  · simp [get_months_since_application, hrec, hbad]

/-- Witness for C9 on a store holding a corrupt date. -/
theorem C9_witness :
    get_application [⟨"u", "not-a-date", "", ""⟩] "u"
        = some ⟨"u", "not-a-date", "", ""⟩
      ∧ parseIsoDate "not-a-date" = none
      ∧ should_reapply [⟨"u", "not-a-date", "", ""⟩] "u" 2 ⟨2026, 10, 12⟩ = true
      ∧ get_months_since_application [⟨"u", "not-a-date", "", ""⟩] "u"
          ⟨2026, 10, 12⟩ = none := by
  have h := C9_unparseable_date_permits_reapply
    [⟨"u", "not-a-date", "", ""⟩] "u" 2 ⟨2026, 10, 12⟩
    ⟨"u", "not-a-date", "", ""⟩ (by decide) (by decide)
  exact ⟨by decide, by decide, h.1, h.2⟩

/-- Claim C10: `calculate_months_between` is exactly the year/month
formula, ignores the day component entirely (so consecutive days across a
month boundary count as one month), and is negative whenever the target
year-month precedes the source year-month. -/
theorem C10_months_between_formula (f t : PyDate) :
    calculate_months_between f t
        = ((t.year : Int) - (f.year : Int)) * 12
            + ((t.month : Int) - (f.month : Int))
      ∧ (∀ d1 d2 : Nat,
          calculate_months_between ⟨f.year, f.month, d1⟩ ⟨t.year, t.month, d2⟩
            = calculate_months_between f t)
      ∧ calculate_months_between ⟨2023, 1, 31⟩ ⟨2023, 2, 1⟩ = 1
      ∧ (1 ≤ f.month → f.month ≤ 12 → 1 ≤ t.month → t.month ≤ 12 →
          (t.year < f.year ∨ (t.year = f.year ∧ t.month < f.month)) →
          calculate_months_between f t < 0) := by
  refine ⟨rfl, fun d1 d2 => rfl, by decide, ?_⟩
  intro h1 h2 h3 h4 h5
  unfold calculate_months_between
  rcases h5 with h | ⟨hy, hm⟩ <;> omega

/-- Witness for C10: March 2023 precedes May 2023, so the elapsed-months
value from May back to March is negative. -/
theorem C10_witness :
    (1:Nat) ≤ 5 ∧ (5:Nat) ≤ 12 ∧ (1:Nat) ≤ 3 ∧ (3:Nat) ≤ 12
      ∧ calculate_months_between ⟨2023, 5, 10⟩ ⟨2023, 3, 2⟩ < 0 :=
  ⟨by decide, by decide, by decide, by decide,
    (C10_months_between_formula ⟨2023, 5, 10⟩ ⟨2023, 3, 2⟩).2.2.2
      (by decide) (by decide) (by decide) (by decide)
      (Or.inr ⟨rfl, by decide⟩)⟩

/-- Claim C3 as stated is false: the month difference is antisymmetric,
not symmetric, so swapping the dates flips the sign and changes the
threshold comparison.  January to June 2023 is 5 months, which clears a
threshold of 2; the reverse direction is -5 months, which does not. -/
theorem C3_counterexample :
    ¬ ((calculate_months_between ⟨2023, 1, 15⟩ ⟨2023, 6, 15⟩ ≥ 2)
        ↔ (calculate_months_between ⟨2023, 6, 15⟩ ⟨2023, 1, 15⟩ ≥ 2)) := by
  decide

/-- Claim C3, amended: `calculate_months_between` is antisymmetric
(`m(d1,d2) = -m(d2,d1)`), so the threshold comparison is invariant under
swapping the two dates exactly when both sides agree — in particular
whenever the two dates fall in the same calendar month, where the
difference is zero in both directions. -/
theorem C3_antisymmetric_months
    (d1 d2 : PyDate) :
    calculate_months_between d1 d2 = - calculate_months_between d2 d1
      ∧ (d1.year = d2.year → d1.month = d2.month → ∀ t : Int,
          ((calculate_months_between d1 d2 ≥ t)
            ↔ (calculate_months_between d2 d1 ≥ t))) := by
  constructor
  · unfold calculate_months_between; ring
  · intro hy hm t
    unfold calculate_months_between
    rw [hy, hm]

/-- Witness for C3's amended statement on two dates in October 2026. -/
theorem C3_witness :
    calculate_months_between ⟨2026, 10, 3⟩ ⟨2026, 10, 28⟩
        = - calculate_months_between ⟨2026, 10, 28⟩ ⟨2026, 10, 3⟩
      ∧ ((calculate_months_between ⟨2026, 10, 3⟩ ⟨2026, 10, 28⟩ ≥ 1)
          ↔ (calculate_months_between ⟨2026, 10, 28⟩ ⟨2026, 10, 3⟩ ≥ 1)) :=
  ⟨(C3_antisymmetric_months ⟨2026, 10, 3⟩ ⟨2026, 10, 28⟩).1,
    (C3_antisymmetric_months ⟨2026, 10, 3⟩ ⟨2026, 10, 28⟩).2 rfl rfl 1⟩

/-- Claim C7: `load_filter` falls back to the hard-coded Ukrainian filter
text whenever the file read fails; `resolve_filter_path` substitutes the
bundled `filter_example.txt` when the configured path is missing but the
bundled file exists; and the bot's resume loader falls back to its
hard-coded resume text when the resume file cannot be read. -/
theorem C7_fallback_texts
    (e1 e2 : String) (cfgPath : Option String) (pathExists : String → Bool)
    (hmiss : pathExists (cfgPath.getD "./my_filter.txt") = false)
    (hbundled : pathExists "filter_example.txt" = true) :
    load_filter (.error e1) = fallbackFilter
      ∧ resolve_filter_path cfgPath pathExists = "filter_example.txt"
      ∧ load_resume (.error e2) = fallbackResume := by
  refine ⟨rfl, ?_, rfl⟩
  simp [resolve_filter_path, hmiss, hbundled]

/-- Witness for C7 with a file system holding only the bundled filter. -/
theorem C7_witness :
    (fun s => s == "filter_example.txt") "./my_filter.txt" = false
      ∧ (fun s => s == "filter_example.txt") "filter_example.txt" = true
      ∧ load_filter (.error "No such file") = fallbackFilter
      ∧ resolve_filter_path none (fun s => s == "filter_example.txt")
          = "filter_example.txt"
      ∧ load_resume (.error "No such file") = fallbackResume := by
  have h := C7_fallback_texts "No such file" "No such file" none
    (fun s => s == "filter_example.txt") (by decide) (by decide)
  exact ⟨by decide, by decide, h.1, h.2.1, h.2.2⟩

/-! ### Claims about the apply driver -/

/-- Claim C5: per-step failures degrade instead of aborting, with at most
one fallback retry — an LLM exception in `analyze_job` yields
`(False, 0, reason)`; a reply the `PROBABILITY` regex cannot parse makes
`analyze_job_match` return the default `(50, raw text)`; a failed apply
click is retried exactly once with a force-click, never more than two
attempts in total, and when both clicks fail `apply_to_job` returns
`False` for that job, leaving the store as the already-sent check left
it. -/
theorem C5_failures_degrade
    (min_score : Int) (e : String) (reply : String) (env : ApplyPageEnv)
    (cfg : ApplyConfig) (db : List VacancyRecord) (now : PyDate)
    (job : JobListing) :
    analyze_job true min_score (.error e)
        = (false, 0, "Analysis error: " ++ e)
      ∧ (searchProbability reply.data = none →
          analyze_job_match true true (.ok reply) = (50, reply))
      ∧ (env.normalClickOk = false → env.forceClickOk = true →
          clickApplyButton env = (true, 2))
      ∧ (clickApplyButton env).2 ≤ 2
      ∧ (env.normalClickOk = false → env.forceClickOk = false →
          should_reapply db job.url cfg.REAPPLY_AFTER_MONTHS now = true →
          (alreadySentCheck env cfg db now job).1 = true →
          preApplyCheck env cfg = true →
          (env.hasApplyButton || env.hasViewResumeApplyButton) = true →
          apply_to_job true env cfg db now job
            = (false, (alreadySentCheck env cfg db now job).2)) := by
  refine ⟨rfl, ?_, ?_, ?_, ?_⟩
  · intro h
    simp [analyze_job_match, h]
  · intro h1 h2
    simp [clickApplyButton, h1, h2]
  · unfold clickApplyButton
    split
    · simp
    · split <;> simp
  · intro h1 h2 hdb hstep hllm hbtn
    simp [apply_to_job, hdb, hstep, hllm, hbtn, clickApplyButton, h1, h2]

/-- Witness for C5: a reply with no parsable probability, and a page where
the normal click and the force click both fail. -/
theorem C5_witness :
    searchProbability "нема числа".data = none
      ∧ analyze_job_match true true (.ok "нема числа") = (50, "нема числа")
      ∧ should_reapply [] "u" 2 ⟨2026, 10, 12⟩ = true
      ∧ apply_to_job true
          ⟨false, none, none, true, false, false, false, true, false, false,
            false, false, false⟩
          ⟨2, false, 70⟩ [] ⟨2026, 10, 12⟩ ⟨"u", "t", "c", "l", none, ""⟩
          = (false, []) := by
  have h := C5_failures_degrade 7 "err" "нема числа"
    ⟨false, none, none, true, false, false, false, true, false, false,
      false, false, false⟩
    ⟨2, false, 70⟩ [] ⟨2026, 10, 12⟩ ⟨"u", "t", "c", "l", none, ""⟩
  exact ⟨by decide, h.2.1 (by decide), by decide,
    h.2.2.2.2 rfl rfl (by decide) rfl rfl rfl⟩

/-- Claim C4: once the apply sequence reaches its final confirmation
block, the reported success is exactly the disjunction of the three
heuristics (`/sent/` in the URL, a success text, a "Переглянути резюме"
button), success upserts the job's URL with the current date, and a
failed check leaves the store exactly as the earlier steps left it. -/
theorem C4_success_iff_heuristics
    (env : ApplyPageEnv) (cfg : ApplyConfig) (db : List VacancyRecord)
    (now : PyDate) (job : JobListing)
    (hdb : should_reapply db job.url cfg.REAPPLY_AFTER_MONTHS now = true)
    (hstep : (alreadySentCheck env cfg db now job).1 = true)
    (hllm : preApplyCheck env cfg = true)
    (hbtn : (env.hasApplyButton || env.hasViewResumeApplyButton) = true)
    (hclick : (clickApplyButton env).1 = true)
    (hsend : env.hasSendButton = true) :
    (apply_to_job true env cfg db now job).1
        = (env.finalUrlHasSent || env.hasSuccessText
            || env.hasViewResumeButtonAfter)
      ∧ ((apply_to_job true env cfg db now job).1 = true →
          (apply_to_job true env cfg db now job).2
            = add_or_update (alreadySentCheck env cfg db now job).2 job.url
                (isoFormat now) job.title job.company)
      ∧ ((apply_to_job true env cfg db now job).1 = false →
          (apply_to_job true env cfg db now job).2
            = (alreadySentCheck env cfg db now job).2) := by
  have happ : apply_to_job true env cfg db now job
      = successCheck env (alreadySentCheck env cfg db now job).2 now job := by
    simp [apply_to_job, hdb, hstep, hllm, hbtn, hclick, hsend]
  rw [happ]
  unfold successCheck successDetected
  split
  · next h => simp_all
  · next h => simp_all

/-- Witness for C4: every gate passes and the page lands on a `/sent/`
URL, so the call reports success and records today's date. -/
theorem C4_witness :
    should_reapply [] "u" 2 ⟨2026, 10, 12⟩ = true
      ∧ apply_to_job true
          ⟨false, none, none, true, false, true, false, true, false, false,
            true, false, false⟩
          ⟨2, false, 70⟩ [] ⟨2026, 10, 12⟩ ⟨"u", "t", "c", "l", none, ""⟩
          = (true, [⟨"u", "2026-10-12", "t", "c"⟩]) := by
  have h := C4_success_iff_heuristics
    ⟨false, none, none, true, false, true, false, true, false, false,
      true, false, false⟩
    ⟨2, false, 70⟩ [] ⟨2026, 10, 12⟩ ⟨"u", "t", "c", "l", none, ""⟩
    (by decide) rfl rfl rfl rfl rfl
  refine ⟨by decide, ?_⟩
  have h1 := h.1
  have h2 := h.2.1 (by rw [h1]; rfl)
  have : (apply_to_job true
      ⟨false, none, none, true, false, true, false, true, false, false,
        true, false, false⟩
      ⟨2, false, 70⟩ [] ⟨2026, 10, 12⟩ ⟨"u", "t", "c", "l", none, ""⟩).2
      = [⟨"u", "2026-10-12", "t", "c"⟩] := by
    rw [h2]; decide
  exact Prod.ext (by rw [h1]; rfl) this

/-! ### Claims about the search driver -/

/-- The loop visits at most `remaining` further pages. -/
theorem searchLoop_visited_le (pages : Nat → List JobListing)
    (tgt : Option Nat) :
    ∀ (r p : Nat) (acc : List JobListing),
      (searchLoop pages tgt p r acc).2 ≤ r := by
  intro r
  induction r with
  | zero => intro p acc; simp [searchLoop]
  | succ n ih =>
    intro p acc
    simp only [searchLoop]
    split
    · simp
    · have := ih (p + 1) (acc ++ pages p)
      simp
      omega

/-- The loop returns the accumulator followed by the pages it visited, in
visit order. -/
theorem searchLoop_jobs (pages : Nat → List JobListing) (tgt : Option Nat) :
    ∀ (r p : Nat) (acc : List JobListing),
      (searchLoop pages tgt p r acc).1
        = acc ++ pagesFrom pages p (searchLoop pages tgt p r acc).2 := by
  intro r
  induction r with
  | zero => intro p acc; simp [searchLoop, pagesFrom]
  | succ n ih =>
    intro p acc
    simp only [searchLoop]
    split
    · simp [pagesFrom]
    · have := ih (p + 1) (acc ++ pages p)
      simp only [pagesFrom]
      rw [this]
      simp

/-- No page strictly before the last visited one had already triggered the
break condition. -/
theorem searchLoop_first_stop (pages : Nat → List JobListing)
    (tgt : Option Nat) :
    ∀ (r p : Nat) (acc : List JobListing) (j : Nat), 1 ≤ j →
      j < (searchLoop pages tgt p r acc).2 →
      targetReached tgt (acc ++ pagesFrom pages p j).length = false := by
  intro r
  induction r with
  | zero => intro p acc j _ hj; simp [searchLoop] at hj
  | succ n ih =>
    intro p acc j hj1 hj2
    simp only [searchLoop] at hj2
    by_cases hbr : targetReached tgt (acc ++ pages p).length = true
    · rw [if_pos hbr] at hj2
      simp at hj2
      omega
    · rw [if_neg hbr] at hj2
      simp only [Bool.not_eq_true] at hbr
      rcases Nat.lt_or_ge j 2 with hj | hj
      · have hj1' : j = 1 := by omega
        subst hj1'
        simpa [pagesFrom] using hbr
      · have hstep : acc ++ pagesFrom pages p j
            = (acc ++ pages p) ++ pagesFrom pages (p + 1) (j - 1) := by
          obtain ⟨j', rfl⟩ : ∃ j', j = j' + 1 := ⟨j - 1, by omega⟩
          simp [pagesFrom, List.append_assoc]
        rw [hstep]
        exact ih (p + 1) (acc ++ pages p) (j - 1) (by omega) (by omega)

/-- Claim C6 as stated is false for `target_jobs = 0`: the break condition
`if target_jobs and len(jobs) >= target_jobs` treats a zero target as
falsy, so even though page 1 already accumulates at least 0 jobs, the
scan continues to page 2. -/
theorem C6_counterexample :
    (pagesFrom (fun _ => [⟨"u", "t", "c", "l", none, ""⟩]) 1 1).length ≥ 0
      ∧ (search_jobs (fun _ => [⟨"u", "t", "c", "l", none, ""⟩]) 2
          (some 0)).2 = 2 := by
  constructor
  · decide
  · decide

/-- Claim C6, amended: `search_jobs` visits at most `max_pages` result
pages and returns exactly the listings of the pages it visited; when a
nonzero `target_jobs` is given, no page before the last visited one had
yet reached the target, and once some page's accumulated count reaches
the target no page after it is visited. -/
theorem C6_page_cap_and_target_stop (pages : Nat → List JobListing)
    (m : Nat) (tgt : Option Nat) :
    (search_jobs pages m tgt).2 ≤ m
      ∧ (search_jobs pages m tgt).1
          = pagesFrom pages 1 (search_jobs pages m tgt).2
      ∧ (∀ t : Nat, tgt = some t → 0 < t →
          (∀ j, 1 ≤ j → j < (search_jobs pages m tgt).2 →
            (pagesFrom pages 1 j).length < t)
          ∧ (∀ j, 1 ≤ j → j ≤ m → t ≤ (pagesFrom pages 1 j).length →
              (search_jobs pages m tgt).2 ≤ j)) := by
  refine ⟨searchLoop_visited_le pages tgt m 1 [], ?_, ?_⟩
  · simpa using searchLoop_jobs pages tgt m 1 []
  · intro t htgt ht
    have hfirst : ∀ j, 1 ≤ j → j < (search_jobs pages m tgt).2 →
        (pagesFrom pages 1 j).length < t := by
      intro j hj1 hj2
      have h := searchLoop_first_stop pages tgt m 1 [] j hj1 hj2
      rw [htgt] at h
      simp only [targetReached, List.nil_append, Bool.and_eq_false_iff] at h
      rcases h with h | h
      · simp at h
        omega
      · simpa using h
    refine ⟨hfirst, ?_⟩
    intro j hj1 _ hreach
    by_contra hlt
    exact absurd hreach (by have := hfirst j hj1 (by omega); omega)

/-- Witness for C6's amended statement: one listing per page, three page
budget, target two — the scan stops after page 2 and page 1 was still
below the target. -/
theorem C6_witness :
    (search_jobs (fun _ => [⟨"u", "t", "c", "l", none, ""⟩]) 3 (some 2)).2 ≤ 3
      ∧ (pagesFrom (fun _ => [⟨"u", "t", "c", "l", none, ""⟩]) 1 1).length
          < 2 := by
  have h := C6_page_cap_and_target_stop
    (fun _ => [⟨"u", "t", "c", "l", none, ""⟩]) 3 (some 2)
  exact ⟨h.1, (h.2.2 2 rfl (by decide)).1 1 (by decide) (by decide)⟩

/-! ### Claims about the upsert -/

/-- Mapping a URL-preserving function over the store does not change any
URL count. -/
theorem countURL_map_preserve (rows : List VacancyRecord)
    (f : VacancyRecord → VacancyRecord) (h : ∀ r, (f r).url = r.url)
    (v : String) : countURL (rows.map f) v = countURL rows v := by
  unfold countURL
  induction rows with
  | nil => rfl
  | cons a l ih =>
    simp only [List.map_cons, List.countP_cons]
    rw [h a, ih]

/-- Mapping a URL-preserving function over the store does not change the
existence check either. -/
theorem anyURL_map_preserve (rows : List VacancyRecord)
    (f : VacancyRecord → VacancyRecord) (h : ∀ r, (f r).url = r.url)
    (u : String) :
    (rows.map f).any (fun r => r.url == u) = rows.any (fun r => r.url == u) := by
  induction rows with
  | nil => rfl
  | cons a l ih =>
    simp only [List.map_cons, List.any_cons]
    rw [h a, ih]

/-- The CSV row-update function preserves the row's URL. -/
theorem updateRow_preserves_url (u d t c : String) :
    ∀ r : VacancyRecord,
      ((fun r => if r.url == u then updateRow r d t c else r) r).url = r.url := by
  intro r
  by_cases h : r.url == u <;> simp [h, updateRow]

/-- The Supabase upsert replacement preserves the row's URL. -/
theorem sbReplace_preserves_url (u d t c : String) :
    ∀ r : VacancyRecord,
      ((fun r => if r.url == u then (⟨u, d, t, c⟩ : VacancyRecord) else r) r).url
        = r.url := by
  intro r
  by_cases h : r.url == u
  · simp only [h, if_true]
    exact (eq_of_beq h).symm
  · simp [h]

/-- URL counts after a CSV `add_or_update`: the upserted URL's count
becomes 1 when it was 0 and is otherwise unchanged; other URLs are
untouched. -/
theorem countURL_add_or_update (rows : List VacancyRecord)
    (u d t c v : String) :
    countURL (add_or_update rows u d t c) v
      = if v = u then (if countURL rows u = 0 then 1 else countURL rows u)
        else countURL rows v := by
  unfold add_or_update
  by_cases hany : rows.any (fun r => r.url == u) = true
  · simp only [hany, if_true]
    have hpos : 0 < countURL rows u := by
      unfold countURL
      exact List.countP_pos_iff.mpr (List.any_eq_true.mp hany)
    rw [countURL_map_preserve rows _ (updateRow_preserves_url u d t c) v]
    by_cases hv : v = u
    · subst hv; rw [if_pos rfl, if_neg (by omega)]
    · rw [if_neg hv]
  · simp only [Bool.not_eq_true] at hany
    simp only [hany, Bool.false_eq_true, if_false]
    have hzero : countURL rows u = 0 := by
      by_contra hz
      have h1 := List.countP_pos_iff.mp (Nat.pos_of_ne_zero hz)
      have := List.any_eq_true.mpr h1
      rw [hany] at this
      exact Bool.false_ne_true this
    unfold countURL
    rw [List.countP_append]
    have hmap := countURL_map_preserve rows _ (updateRow_preserves_url u d t c) v
    unfold countURL at hmap
    rw [hmap]
    by_cases hv : v = u
    · subst hv
      unfold countURL at hzero
      simp [List.countP_cons, hzero]
    · have : ((⟨u, d, t, c⟩ : VacancyRecord).url == v) = false := by
        simp only [Bool.eq_false_iff]
        intro hbeq
        exact hv (eq_of_beq hbeq).symm
      simp [List.countP_cons, this, hv]

/-- URL counts after a Supabase `add_or_update`: same shape as the CSV
case. -/
theorem sb_countURL_add_or_update (tbl : List VacancyRecord)
    (u d t c v : String) :
    countURL (sb_add_or_update tbl u d t c) v
      = if v = u then (if countURL tbl u = 0 then 1 else countURL tbl u)
        else countURL tbl v := by
  unfold sb_add_or_update
  by_cases hany : tbl.any (fun r => r.url == u) = true
  · simp only [hany, if_true]
    have hpos : 0 < countURL tbl u := by
      unfold countURL
      exact List.countP_pos_iff.mpr (List.any_eq_true.mp hany)
    rw [countURL_map_preserve tbl _ (sbReplace_preserves_url u d t c) v]
    by_cases hv : v = u
    · subst hv; rw [if_pos rfl, if_neg (by omega)]
    · rw [if_neg hv]
  · simp only [Bool.not_eq_true] at hany
    simp only [hany, Bool.false_eq_true, if_false]
    have hzero : countURL tbl u = 0 := by
      by_contra hz
      have h1 := List.countP_pos_iff.mp (Nat.pos_of_ne_zero hz)
      have := List.any_eq_true.mpr h1
      rw [hany] at this
      exact Bool.false_ne_true this
    unfold countURL
    rw [List.countP_append]
    by_cases hv : v = u
    · subst hv
      unfold countURL at hzero
      simp [List.countP_cons, hzero]
    · have : ((⟨u, d, t, c⟩ : VacancyRecord).url == v) = false := by
        simp only [Bool.eq_false_iff]
        intro hbeq
        exact hv (eq_of_beq hbeq).symm
      simp [List.countP_cons, this, hv]

/-- The CSV per-row update is idempotent. -/
theorem updateRow_idem (u d t c : String) (r : VacancyRecord) :
    (fun r => if r.url == u then updateRow r d t c else r)
        ((fun r => if r.url == u then updateRow r d t c else r) r)
      = (fun r => if r.url == u then updateRow r d t c else r) r := by
  by_cases h : r.url == u
  · simp only [h, if_true]
    have hurl : (updateRow r d t c).url = r.url := rfl
    simp only [hurl, h, if_true]
    unfold updateRow
    by_cases ht : t = "" <;> by_cases hc : c = "" <;> simp [ht, hc]
  · simp [h]

/-- A fresh CSV row built from the arguments is a fixed point of the
per-row update. -/
theorem updateRow_new_fixed (u d t c : String) :
    (fun r => if r.url == u then updateRow r d t c else r)
        (⟨u, d, t, c⟩ : VacancyRecord)
      = (⟨u, d, t, c⟩ : VacancyRecord) := by
  have h : ((⟨u, d, t, c⟩ : VacancyRecord).url == u) = true := by
    simp
  simp only [h, if_true]
  unfold updateRow
  by_cases ht : t = "" <;> by_cases hc : c = "" <;> simp [ht, hc]

/-- CSV `add_or_update` is idempotent in the sense of the upsert claim:
running the very same upsert twice equals running it once. -/
theorem add_or_update_idem (rows : List VacancyRecord) (u d t c : String) :
    add_or_update (add_or_update rows u d t c) u d t c
      = add_or_update rows u d t c := by
  by_cases hany : rows.any (fun r => r.url == u) = true
  · have h1 : add_or_update rows u d t c
        = rows.map (fun r => if r.url == u then updateRow r d t c else r) := by
      unfold add_or_update
      simp only [hany, if_true]
    rw [h1]
    have hany2 : (rows.map
        (fun r => if r.url == u then updateRow r d t c else r)).any
          (fun r => r.url == u) = true := by
      rw [anyURL_map_preserve rows _ (updateRow_preserves_url u d t c) u]
      exact hany
    unfold add_or_update
    simp only [hany2, if_true]
    rw [List.map_map]
    exact List.map_congr_left (fun a _ => updateRow_idem u d t c a)
  · simp only [Bool.not_eq_true] at hany
    have h1 : add_or_update rows u d t c
        = rows.map (fun r => if r.url == u then updateRow r d t c else r)
            ++ [⟨u, d, t, c⟩] := by
      unfold add_or_update
      simp only [hany, Bool.false_eq_true, if_false]
    rw [h1]
    have hany2 : ((rows.map
        (fun r => if r.url == u then updateRow r d t c else r))
          ++ [(⟨u, d, t, c⟩ : VacancyRecord)]).any
            (fun r => r.url == u) = true := by
      simp
    unfold add_or_update
    simp only [hany2, if_true]
    rw [List.map_append]
    congr 1
    · rw [List.map_map]
      exact List.map_congr_left (fun a _ => updateRow_idem u d t c a)
    · simp only [List.map_singleton]
      exact congrArg (fun x => [x]) (updateRow_new_fixed u d t c)

/-- The Supabase per-row replacement is idempotent. -/
theorem sbReplace_idem (u d t c : String) (r : VacancyRecord) :
    (fun r => if r.url == u then (⟨u, d, t, c⟩ : VacancyRecord) else r)
        ((fun r => if r.url == u then (⟨u, d, t, c⟩ : VacancyRecord) else r) r)
      = (fun r => if r.url == u then (⟨u, d, t, c⟩ : VacancyRecord) else r) r := by
  by_cases h : r.url == u
  · have hu : ((⟨u, d, t, c⟩ : VacancyRecord).url == u) = true := by simp
    simp only [h, if_true, hu]
  · simp [h]

/-- Rows that never match the upserted URL are untouched by the Supabase
replacement map. -/
theorem sbReplace_map_id (tbl : List VacancyRecord) (u d t c : String)
    (hany : (tbl.any fun r => r.url == u) = false) :
    tbl.map (fun r => if r.url == u then (⟨u, d, t, c⟩ : VacancyRecord) else r)
      = tbl := by
  conv_rhs => rw [← List.map_id tbl]
  refine List.map_congr_left ?_
  intro a ha
  have hfalse : (a.url == u) = false := by
    by_contra hcon
    simp only [Bool.not_eq_false] at hcon
    have : tbl.any (fun r => r.url == u) = true :=
      List.any_eq_true.mpr ⟨a, ha, hcon⟩
    rw [hany] at this
    exact Bool.false_ne_true this
  simp [hfalse]

/-- Supabase `add_or_update` (atomic upsert on the URL key) is
idempotent. -/
theorem sb_add_or_update_idem (tbl : List VacancyRecord) (u d t c : String) :
    sb_add_or_update (sb_add_or_update tbl u d t c) u d t c
      = sb_add_or_update tbl u d t c := by
  by_cases hany : tbl.any (fun r => r.url == u) = true
  · have h1 : sb_add_or_update tbl u d t c
        = tbl.map (fun r => if r.url == u then ⟨u, d, t, c⟩ else r) := by
      unfold sb_add_or_update
      simp only [hany, if_true]
    rw [h1]
    have hany2 : (tbl.map
        (fun r => if r.url == u then (⟨u, d, t, c⟩ : VacancyRecord) else r)).any
          (fun r => r.url == u) = true := by
      rw [anyURL_map_preserve tbl _ (sbReplace_preserves_url u d t c) u]
      exact hany
    unfold sb_add_or_update
    simp only [hany2, if_true]
    rw [List.map_map]
    exact List.map_congr_left (fun a _ => sbReplace_idem u d t c a)
  · simp only [Bool.not_eq_true] at hany
    have h1 : sb_add_or_update tbl u d t c = tbl ++ [⟨u, d, t, c⟩] := by
      unfold sb_add_or_update
      simp only [hany, Bool.false_eq_true, if_false]
    rw [h1]
    have hany2 : ((tbl ++ [(⟨u, d, t, c⟩ : VacancyRecord)]).any
        (fun r => r.url == u)) = true := by
      simp
    unfold sb_add_or_update
    simp only [hany2, if_true]
    rw [List.map_append]
    congr 1
    · exact sbReplace_map_id tbl u d t c hany
    · have hu : ((⟨u, d, t, c⟩ : VacancyRecord).url == u) = true := by simp
      simp only [List.map_singleton, hu, if_true]

/-- A CSV upsert keeps the at-most-one-record-per-URL invariant. -/
theorem atMostOne_add_or_update (rows : List VacancyRecord)
    (u d t c : String) (h : atMostOnePerURL rows) :
    atMostOnePerURL (add_or_update rows u d t c) := by
  intro v
  rw [countURL_add_or_update]
  split
  · split
    · omega
    · exact h u
  · exact h v

/-- A Supabase upsert keeps the at-most-one-record-per-URL invariant. -/
theorem sb_atMostOne_add_or_update (tbl : List VacancyRecord)
    (u d t c : String) (h : atMostOnePerURL tbl) :
    atMostOnePerURL (sb_add_or_update tbl u d t c) := by
  intro v
  rw [sb_countURL_add_or_update]
  split
  · split
    · omega
    · exact h u
  · exact h v

/-- After a CSV upsert on a clean store, the upserted URL has exactly one
record. -/
theorem countURL_add_or_update_self (rows : List VacancyRecord)
    (u d t c : String) (h : atMostOnePerURL rows) :
    countURL (add_or_update rows u d t c) u = 1 := by
  rw [countURL_add_or_update, if_pos rfl]
  split
  · rfl
  · have := h u
    omega

/-- After a Supabase upsert on a clean store, the upserted URL has exactly
one record. -/
theorem sb_countURL_add_or_update_self (tbl : List VacancyRecord)
    (u d t c : String) (h : atMostOnePerURL tbl) :
    countURL (sb_add_or_update tbl u d t c) u = 1 := by
  rw [sb_countURL_add_or_update, if_pos rfl]
  split
  · rfl
  · have := h u
    omega

/-- A URL holding exactly one record keeps exactly one record across any
further sequence of CSV upserts. -/
theorem countURL_applyOps_preserve :
    ∀ (ops : List UpsertOp) (rows : List VacancyRecord) (v : String),
      atMostOnePerURL rows → countURL rows v = 1 →
      countURL (applyOps rows ops) v = 1 := by
  intro ops
  induction ops with
  | nil => intro rows v _ h1; exact h1
  | cons op ops ih =>
    intro rows v ham h1
    have step : applyOps rows (op :: ops)
        = applyOps (add_or_update rows op.url op.date_applied op.title
            op.company) ops := rfl
    rw [step]
    apply ih _ v (atMostOne_add_or_update _ _ _ _ _ ham)
    rw [countURL_add_or_update]
    split
    · split
      · rfl
      · next hvu _ => rw [hvu] at h1; exact h1
    · exact h1

/-- A URL holding exactly one record keeps exactly one record across any
further sequence of Supabase upserts. -/
theorem sb_countURL_applyOps_preserve :
    ∀ (ops : List UpsertOp) (tbl : List VacancyRecord) (v : String),
      atMostOnePerURL tbl → countURL tbl v = 1 →
      countURL (sb_applyOps tbl ops) v = 1 := by
  intro ops
  induction ops with
  | nil => intro tbl v _ h1; exact h1
  | cons op ops ih =>
    intro tbl v ham h1
    have step : sb_applyOps tbl (op :: ops)
        = sb_applyOps (sb_add_or_update tbl op.url op.date_applied op.title
            op.company) ops := rfl
    rw [step]
    apply ih _ v (sb_atMostOne_add_or_update _ _ _ _ _ ham)
    rw [sb_countURL_add_or_update]
    split
    · split
      · rfl
      · next hvu _ => rw [hvu] at h1; exact h1
    · exact h1

/-- Any sequence of CSV upserts on a clean store keeps it clean and leaves
exactly one record for every upserted URL. -/
theorem applyOps_unique :
    ∀ (ops : List UpsertOp) (rows : List VacancyRecord),
      atMostOnePerURL rows →
      atMostOnePerURL (applyOps rows ops)
        ∧ ∀ op ∈ ops, countURL (applyOps rows ops) op.url = 1 := by
  intro ops
  induction ops with
  | nil => intro rows h; exact ⟨h, by simp⟩
  | cons op ops ih =>
    intro rows h
    have h2 := atMostOne_add_or_update rows op.url op.date_applied op.title
      op.company h
    have step : applyOps rows (op :: ops)
        = applyOps (add_or_update rows op.url op.date_applied op.title
            op.company) ops := rfl
    obtain ⟨ha, hb⟩ := ih _ h2
    rw [step]
    refine ⟨ha, ?_⟩
    intro op2 hop2
    rcases List.mem_cons.mp hop2 with rfl | hmem
    · exact countURL_applyOps_preserve ops _ op2.url h2
        (countURL_add_or_update_self rows _ _ _ _ h)
    · exact hb op2 hmem

/-- Any sequence of Supabase upserts on a clean store keeps it clean and
leaves exactly one record for every upserted URL. -/
theorem sb_applyOps_unique :
    ∀ (ops : List UpsertOp) (tbl : List VacancyRecord),
      atMostOnePerURL tbl →
      atMostOnePerURL (sb_applyOps tbl ops)
        ∧ ∀ op ∈ ops, countURL (sb_applyOps tbl ops) op.url = 1 := by
  intro ops
  induction ops with
  | nil => intro tbl h; exact ⟨h, by simp⟩
  | cons op ops ih =>
    intro tbl h
    have h2 := sb_atMostOne_add_or_update tbl op.url op.date_applied op.title
      op.company h
    have step : sb_applyOps tbl (op :: ops)
        = sb_applyOps (sb_add_or_update tbl op.url op.date_applied op.title
            op.company) ops := rfl
    obtain ⟨ha, hb⟩ := ih _ h2
    rw [step]
    refine ⟨ha, ?_⟩
    intro op2 hop2
    rcases List.mem_cons.mp hop2 with rfl | hmem
    · exact sb_countURL_applyOps_preserve ops _ op2.url h2
        (sb_countURL_add_or_update_self tbl _ _ _ _ h)
    · exact hb op2 hmem

/-- Claim C2: `add_or_update` is an idempotent upsert keyed by URL, in
both stores — the same call twice equals the call once, and any sequence
of upserts starting from a store with at most one record per URL leaves
at most one record per URL overall and exactly one record for each URL
ever upserted. -/
theorem C2_upsert_idempotent_unique
    (rows tbl : List VacancyRecord) (u d t c : String)
    (ops : List UpsertOp)
    (hrows : atMostOnePerURL rows) (htbl : atMostOnePerURL tbl) :
    add_or_update (add_or_update rows u d t c) u d t c
        = add_or_update rows u d t c
      ∧ sb_add_or_update (sb_add_or_update tbl u d t c) u d t c
          = sb_add_or_update tbl u d t c
      ∧ (atMostOnePerURL (applyOps rows ops)
          ∧ ∀ op ∈ ops, countURL (applyOps rows ops) op.url = 1)
      ∧ (atMostOnePerURL (sb_applyOps tbl ops)
          ∧ ∀ op ∈ ops, countURL (sb_applyOps tbl ops) op.url = 1) :=
  ⟨add_or_update_idem rows u d t c,
    sb_add_or_update_idem tbl u d t c,
    applyOps_unique ops rows hrows,
    sb_applyOps_unique ops tbl htbl⟩

/-- Witness for C2 starting from the empty store: upserting the same URL
twice (with different dates) leaves exactly one record for it. -/
theorem C2_witness :
    add_or_update (add_or_update [] "u" "2024-01-01" "t" "c") "u"
          "2024-01-01" "t" "c"
        = add_or_update [] "u" "2024-01-01" "t" "c"
      ∧ countURL (applyOps []
          [⟨"u", "2024-01-01", "t", "c"⟩, ⟨"u", "2024-02-02", "t2", "c2"⟩])
          "u" = 1
      ∧ countURL (sb_applyOps []
          [⟨"u", "2024-01-01", "t", "c"⟩, ⟨"u", "2024-02-02", "t2", "c2"⟩])
          "u" = 1 := by
  have hempty : atMostOnePerURL [] := by
    intro v
    simp [countURL]
  have h := C2_upsert_idempotent_unique [] [] "u" "2024-01-01" "t" "c"
    [⟨"u", "2024-01-01", "t", "c"⟩, ⟨"u", "2024-02-02", "t2", "c2"⟩]
    hempty hempty
  refine ⟨h.1, ?_, ?_⟩
  · exact h.2.2.1.2 ⟨"u", "2024-01-01", "t", "c"⟩ (by simp)
  · exact h.2.2.2.2 ⟨"u", "2024-01-01", "t", "c"⟩ (by simp)

/-! ### Claims about the CSV shape and the ISO date round trip -/

/-- Any sufficient fuel computes the same digit list. -/
theorem decDigitsGo_congr :
    ∀ (n f1 f2 : Nat), n < f1 → n < f2 →
      decDigitsGo n f1 = decDigitsGo n f2 := by
  intro n
  induction n using Nat.strong_induction_on with
  | _ n ih =>
    intro f1 f2 h1 h2
    obtain ⟨g1, rfl⟩ : ∃ g, f1 = g + 1 := ⟨f1 - 1, by omega⟩
    obtain ⟨g2, rfl⟩ : ∃ g, f2 = g + 1 := ⟨f2 - 1, by omega⟩
    simp only [decDigitsGo]
    by_cases hn : n < 10
    · simp [hn]
    · rw [if_neg hn, if_neg hn,
        ih (n / 10) (by omega) g1 g2 (by omega) (by omega)]

/-- The recurrence satisfied by `decDigits`. -/
theorem decDigits_eq (n : Nat) :
    decDigits n = if n < 10 then [n] else decDigits (n / 10) ++ [n % 10] := by
  show decDigitsGo n (n + 1) = _
  simp only [decDigitsGo]
  by_cases hn : n < 10
  · simp [hn]
  · rw [if_neg hn, if_neg hn,
      decDigitsGo_congr (n / 10) n (n / 10 + 1) (by omega) (by omega)]
    rfl

/-- Every entry of a digit list is a digit. -/
theorem decDigits_mem_lt (n : Nat) : ∀ d ∈ decDigits n, d < 10 := by
  induction n using Nat.strong_induction_on with
  | _ n ih =>
    intro d hd
    rw [decDigits_eq] at hd
    by_cases hn : n < 10
    · rw [if_pos hn] at hd
      simp at hd
      omega
    · rw [if_neg hn] at hd
      rcases List.mem_append.mp hd with h | h
      · exact ih (n / 10) (by omega) d h
      · simp at h
        omega

/-- Character facts for the ten digits. -/
theorem decDigitChar_facts :
    ∀ d : Nat, d < 10 →
      isDigitChar (decDigitChar d) = true ∧ decDigitChar d ≠ '-'
        ∧ (decDigitChar d).toNat - 48 = d := by
  decide

/-- Folding the decimal digits of `n` onto accumulator `a`. -/
theorem foldl_natDecChars (n : Nat) :
    ∀ a : Nat,
      (natDecChars n).foldl (fun acc c => acc * 10 + (c.toNat - 48)) a
        = a * 10 ^ (decDigits n).length + n := by
  induction n using Nat.strong_induction_on with
  | _ n ih =>
    intro a
    have key : ∀ L : Nat,
        (a * 10 ^ L + n / 10) * 10 + n % 10 = a * 10 ^ (L + 1) + n := by
      intro L
      have h10 : (10 : Nat) ^ (L + 1) = 10 ^ L * 10 := pow_succ 10 L
      have hdm : n / 10 * 10 + n % 10 = n := by omega
      calc (a * 10 ^ L + n / 10) * 10 + n % 10
          = a * (10 ^ L * 10) + (n / 10 * 10 + n % 10) := by ring
        _ = a * 10 ^ (L + 1) + n := by rw [h10, hdm]
    unfold natDecChars
    by_cases hn : n < 10
    · rw [decDigits_eq, if_pos hn]
      simp only [List.map_cons, List.map_nil, List.foldl_cons, List.foldl_nil,
        List.length_cons, List.length_nil]
      rw [(decDigitChar_facts n hn).2.2, pow_one]
    · rw [decDigits_eq, if_neg hn]
      simp only [List.map_append, List.map_cons, List.map_nil,
        List.foldl_append, List.foldl_cons, List.foldl_nil,
        List.length_append, List.length_cons, List.length_nil]
      have ihv := ih (n / 10) (by omega) a
      unfold natDecChars at ihv
      rw [ihv, (decDigitChar_facts (n % 10) (by omega)).2.2]
      exact key (decDigits (n / 10)).length

/-- Printing then revaluing a number is the identity. -/
theorem digitsToNat_natDecChars (n : Nat) :
    digitsToNat (natDecChars n) = n := by
  unfold digitsToNat
  rw [foldl_natDecChars n 0]
  simp

/-- Printed numbers consist of digit characters only. -/
theorem natDecChars_all_digits (n : Nat) :
    (natDecChars n).all isDigitChar = true := by
  rw [List.all_eq_true]
  intro c hc
  obtain ⟨d, hd, rfl⟩ := List.mem_map.mp hc
  exact (decDigitChar_facts d (decDigits_mem_lt n d hd)).1

/-- Printed numbers never contain a dash. -/
theorem natDecChars_no_dash (n : Nat) : '-' ∉ natDecChars n := by
  intro hc
  obtain ⟨d, hd, hchr⟩ := List.mem_map.mp hc
  exact (decDigitChar_facts d (decDigits_mem_lt n d hd)).2.1 hchr

/-- One digit for values below ten. -/
theorem decDigits_length_lt (n : Nat) (h : n < 10) :
    (decDigits n).length = 1 := by
  rw [decDigits_eq, if_pos h]
  rfl

/-- One more digit for each division by ten. -/
theorem decDigits_length_ge (n : Nat) (h : 10 ≤ n) :
    (decDigits n).length = (decDigits (n / 10)).length + 1 := by
  rw [decDigits_eq, if_neg (by omega)]
  simp

/-- Two-digit values print as two digits. -/
theorem decDigits_length_two (n : Nat) (h1 : 10 ≤ n) (h2 : n ≤ 99) :
    (decDigits n).length = 2 := by
  rw [decDigits_length_ge n h1, decDigits_length_lt (n / 10) (by omega)]

/-- Four-digit years print as four digits. -/
theorem decDigits_length_four (y : Nat) (h1 : 1000 ≤ y) (h2 : y ≤ 9999) :
    (decDigits y).length = 4 := by
  have ha : (decDigits (y / 10 / 10 / 10)).length = 1 :=
    decDigits_length_lt _ (by omega)
  have hb : (decDigits (y / 10 / 10)).length = 2 := by
    rw [decDigits_length_ge _ (by omega), ha]
  have hc : (decDigits (y / 10)).length = 3 := by
    rw [decDigits_length_ge _ (by omega), hb]
  rw [decDigits_length_ge _ (by omega), hc]

/-- Dash-free text splits into a single piece. -/
theorem splitDash_no_dash : ∀ l : List Char, '-' ∉ l → splitDash l = [l] := by
  intro l
  induction l with
  | nil => intro _; rfl
  | cons c cs ih =>
    intro h
    have hc : ¬ c = '-' := fun he => h (he ▸ List.mem_cons_self c cs)
    simp only [splitDash, if_neg hc]
    rw [ih (fun hm => h (List.mem_cons_of_mem c hm))]

/-- Splitting at the first dash peels off the dash-free prefix. -/
theorem splitDash_append (a rest : List Char) (h : '-' ∉ a) :
    splitDash (a ++ '-' :: rest) = a :: splitDash rest := by
  induction a with
  | nil => simp [splitDash]
  | cons c cs ih =>
    have hc : ¬ c = '-' := fun he => h (he ▸ List.mem_cons_self c cs)
    simp only [List.cons_append, splitDash, if_neg hc, List.append_eq]
    rw [ih (fun hm => h (List.mem_cons_of_mem c hm))]

/-- The `%m`/`%d` rendering: two characters, all digits, no dash, and the
value reads back. -/
theorem pad2Chars_spec (k : Nat) (h1 : 1 ≤ k) (h2 : k ≤ 99) :
    (pad2Chars k).length = 2 ∧ (pad2Chars k).all isDigitChar = true
      ∧ '-' ∉ pad2Chars k ∧ digitsToNat (pad2Chars k) = k := by
  by_cases hk : k < 10
  · have hform : pad2Chars k = ['0', decDigitChar k] := by
      unfold pad2Chars
      rw [if_pos hk]
      unfold natDecChars
      rw [decDigits_eq, if_pos hk]
      rfl
    rw [hform]
    have hf := decDigitChar_facts k hk
    refine ⟨rfl, ?_, ?_, ?_⟩
    · simp only [List.all_cons, List.all_nil, Bool.and_true]
      rw [hf.1]
      rfl
    · intro hm
      rcases List.mem_cons.mp hm with h | h
      · exact absurd h (by decide)
      · simp at h
        exact hf.2.1 h.symm
    · unfold digitsToNat
      simp only [List.foldl_cons, List.foldl_nil]
      have h0 : ('0'.toNat - 48) = 0 := by decide
      rw [h0, hf.2.2]
      omega
  · have hform : pad2Chars k = natDecChars k := by
      unfold pad2Chars
      rw [if_neg hk]
    rw [hform]
    refine ⟨?_, natDecChars_all_digits k, natDecChars_no_dash k,
      digitsToNat_natDecChars k⟩
    unfold natDecChars
    rw [List.length_map]
    exact decDigits_length_two k (by omega) (by omega)

/-- `datetime` month lengths never exceed 31. -/
theorem daysInMonth_le (y m : Nat) : daysInMonth y m ≤ 31 := by
  unfold daysInMonth
  split
  · split <;> omega
  · split <;> omega

/-- Claim C8: the CSV store is created with exactly the header
`url, date_applied, title, company`, every rewrite emits that same
header, and every `date_applied` the program itself writes — always a
`strftime("%Y-%m-%d")` of a real date — parses back as exactly that date
under the store's own `%Y-%m-%d` parser. -/
theorem C8_csv_header_and_iso_round_trip
    (f : CSVFile) (rows : List VacancyRecord) (d : PyDate)
    (h1 : 1000 ≤ d.year) (h2 : d.year ≤ 9999) (h3 : 1 ≤ d.month)
    (h4 : d.month ≤ 12) (h5 : 1 ≤ d.day)
    (h6 : d.day ≤ daysInMonth d.year d.month) :
    (ensure_db_exists none).header = fieldnames
      ∧ ensure_db_exists (some f) = f
      ∧ (writeCSV rows).header = fieldnames
      ∧ parseIsoDate (isoFormat d) = some d := by
  refine ⟨rfl, rfl, rfl, ?_⟩
  obtain ⟨y, m, dd⟩ := d
  dsimp only at h1 h2 h3 h4 h5 h6
  have hY4 : (natDecChars y).length = 4 := by
    unfold natDecChars
    rw [List.length_map]
    exact decDigits_length_four y h1 h2
  have hm2 := pad2Chars_spec m h3 (by omega)
  have hd2 := pad2Chars_spec dd h5 (by have := daysInMonth_le y m; omega)
  have hYm : matchYear (natDecChars y) = true := by
    unfold matchYear
    rw [hY4, natDecChars_all_digits y]
    rfl
  have hMm : matchTwoDigit 1 12 (pad2Chars m) = true := by
    simp [matchTwoDigit, hm2.1, hm2.2.1, hm2.2.2.2, h3, h4]
  have hDm : matchTwoDigit 1 31 (pad2Chars dd) = true := by
    have h31 : dd ≤ 31 := by have := daysInMonth_le y m; omega
    simp [matchTwoDigit, hd2.1, hd2.2.1, hd2.2.2.2, h5, h31]
  have hdata : (isoFormat ⟨y, m, dd⟩).data
      = (natDecChars y ++ ('-' :: pad2Chars m)) ++ ('-' :: pad2Chars dd) :=
    rfl
  have hsplit : splitDash (isoFormat ⟨y, m, dd⟩).data
      = [natDecChars y, pad2Chars m, pad2Chars dd] := by
    rw [hdata, List.append_assoc, List.cons_append,
      splitDash_append _ _ (natDecChars_no_dash y),
      splitDash_append _ _ hm2.2.2.1,
      splitDash_no_dash _ hd2.2.2.1]
  unfold parseIsoDate
  rw [hsplit]
  dsimp only
  rw [hYm, hMm, hDm]
  rw [digitsToNat_natDecChars y, hm2.2.2.2, hd2.2.2.2]
  have hok : 1 ≤ y ∧ dd ≤ daysInMonth y m := ⟨by omega, h6⟩
  rw [if_pos hok]
  simp

/-- Witness for C8 at 12 October 2026: the written string parses back to
the same date. -/
theorem C8_witness :
    (1000 ≤ 2026 ∧ (10:Nat) ≤ 12 ∧ (12:Nat) ≤ daysInMonth 2026 10)
      ∧ parseIsoDate (isoFormat ⟨2026, 10, 12⟩) = some ⟨2026, 10, 12⟩ :=
  ⟨⟨by decide, by decide, by decide⟩,
    (C8_csv_header_and_iso_round_trip ⟨fieldnames, []⟩ [] ⟨2026, 10, 12⟩
      (by decide) (by decide) (by decide) (by decide) (by decide)
      (by decide)).2.2.2⟩
